import Mathlib

/-!
Verification of the ws-rs WebSocket core: a shallow embedding of
`src/frame.rs` (the frame codec) and `src/connection.rs` (the connection
engine), with theorems settling the spec's claims about them.

Bytes are modelled as `Nat` (values < 256 on the wire); machine-integer
behaviour (big-endian u16/u64 length fields) is made explicit where the
source relies on it.
-/

namespace WsRs

/-- Modelled from the spec: the frame opcode enumeration
{Continue, Text, Binary, Close, Ping, Pong, Bad} (spec section 4.1);
the source file `protocol.rs` is not part of the provided sources. -/
inductive OpCode
  | Continue
  | Text
  | Binary
  | Close
  | Ping
  | Pong
  | Bad
  deriving DecidableEq, Repr

/-- Modelled from the spec: opcode wire decoding, low nibble
`{0:Continue, 1:Text, 2:Binary, 8:Close, 9:Ping, 10:Pong, else:Bad}`. -/
def OpCode.fromU8 (b : Nat) : OpCode :=
  if b = 0 then .Continue
  else if b = 1 then .Text
  else if b = 2 then .Binary
  else if b = 8 then .Close
  else if b = 9 then .Ping
  else if b = 10 then .Pong
  else .Bad

/-- Modelled from the spec: opcode wire encoding, inverse of the decode
mapping on the six real opcodes. `Bad` never appears in a legal frame;
its encoding (unspecified by the spec) is chosen as 8. -/
def OpCode.intoU8 : OpCode → Nat
  | .Continue => 0
  | .Text => 1
  | .Binary => 2
  | .Close => 8
  | .Ping => 9
  | .Pong => 10
  | .Bad => 8

/-- Control opcodes are Close, Ping, Pong. -/
def OpCode.isControl : OpCode → Bool
  | .Close => true
  | .Ping => true
  | .Pong => true
  | _ => false

/-- Modelled from the spec: the RFC 6455 close-code space mapped to named
variants plus an `Other(u16)` catch-all (spec section 4.1); `Empty` is the
variant used for a close frame with no payload (spec section 4.2). The
source file `protocol.rs` is not part of the provided sources. -/
inductive CloseCode
  | Normal
  | Away
  | Protocol
  | Unsupported
  | Status
  | Abnormal
  | Invalid
  | Policy
  | Size
  | Extension
  | Error
  | Restart
  | Again
  | Tls
  | Empty
  | Other (code : Nat)
  deriving DecidableEq, Repr

/-- Modelled from the spec: close-code wire decoding (spec section 4.1:
Normal=1000, Away=1001, Protocol=1002, Unsupported=1003, Status=1005,
Abnormal=1006, Invalid=1007, Policy=1008, Size=1009, Extension=1010,
Error=1011, Restart=1012, Again=1013, Tls=1015, all others `Other`). -/
def CloseCode.fromU16 (code : Nat) : CloseCode :=
  if code = 1000 then .Normal
  else if code = 1001 then .Away
  else if code = 1002 then .Protocol
  else if code = 1003 then .Unsupported
  else if code = 1005 then .Status
  else if code = 1006 then .Abnormal
  else if code = 1007 then .Invalid
  else if code = 1008 then .Policy
  else if code = 1009 then .Size
  else if code = 1010 then .Extension
  else if code = 1011 then .Error
  else if code = 1012 then .Restart
  else if code = 1013 then .Again
  else if code = 1015 then .Tls
  else .Other code

/-- Modelled from the spec: close-code wire encoding, inverse of the named
mapping. `Empty` is never written to the wire (`Frame.close` emits an empty
payload for it); its numeric value is chosen as 1005. -/
def CloseCode.intoU16 : CloseCode → Nat
  | .Normal => 1000
  | .Away => 1001
  | .Protocol => 1002
  | .Unsupported => 1003
  | .Status => 1005
  | .Abnormal => 1006
  | .Invalid => 1007
  | .Policy => 1008
  | .Size => 1009
  | .Extension => 1010
  | .Error => 1011
  | .Restart => 1012
  | .Again => 1013
  | .Tls => 1015
  | .Empty => 1005
  | .Other code => code

/-- Error kinds of `result.rs` that the embedded code can produce. -/
inductive Kind
  | Internal
  | Capacity
  | Protocol
  | Encoding
  deriving DecidableEq, Repr

/-- `apply_mask` of frame.rs: XOR each byte of `buf` with the 4-byte key
cycled; `i` is the index of the first byte of `buf` within the cycle. -/
def applyMask (mask : List Nat) : Nat → List Nat → List Nat
  | _, [] => []
  | i, b :: rest => (b ^^^ mask.getD (i % 4) 0) :: applyMask mask (i + 1) rest

/-- The `Frame` struct of frame.rs. -/
structure Frame where
  finished : Bool
  rsv1 : Bool
  rsv2 : Bool
  rsv3 : Bool
  opcode : OpCode
  mask : Option (List Nat)
  payload : List Nat
  deriving DecidableEq, Repr

namespace Frame

/-- `Frame::default()`: a final Close frame with no mask and no payload. -/
def default : Frame :=
  { finished := true, rsv1 := false, rsv2 := false, rsv3 := false,
    opcode := .Close, mask := none, payload := [] }

/-- `Frame::len()`: header length (2 base + 0/2/8 extended-length bytes
+ 0/4 mask bytes) plus payload length. -/
def len (f : Frame) : Nat :=
  2 + (if f.payload.length > 125 then if f.payload.length ≤ 65535 then 2 else 8 else 0)
    + (if f.mask.isSome then 4 else 0) + f.payload.length

/-- `Frame::set_rsv3(has_rsv3)` as written in the source: it assigns the
argument to the `rsv1` field (frame.rs line 141). -/
def set_rsv3 (f : Frame) (has_rsv3 : Bool) : Frame :=
  { f with rsv1 := has_rsv3 }

/-- `Frame::set_mask()` with the random 4-byte draw passed explicitly. -/
def set_mask (f : Frame) (m : List Nat) : Frame :=
  { f with mask := some m }

/-- `Frame::remove_mask()`: if a mask is present, XOR the payload with it;
in all cases clear the mask field. -/
def remove_mask (f : Frame) : Frame :=
  match f.mask with
  | some m => { f with payload := applyMask m 0 f.payload, mask := none }
  | none => { f with mask := none }

/-- `Frame::message(data, code, finished)`. -/
def message (data : List Nat) (code : OpCode) (finished : Bool) : Frame :=
  { Frame.default with finished := finished, opcode := code, payload := data }

/-- `Frame::pong(data)`. -/
def pong (data : List Nat) : Frame :=
  { Frame.default with opcode := .Pong, payload := data }

/-- `Frame::ping(data)`. -/
def ping (data : List Nat) : Frame :=
  { Frame.default with opcode := .Ping, payload := data }

/-- `Frame::close(code, reason)`: payload is the big-endian u16 close code
followed by the reason bytes, or empty when the code is `Empty`.
(The constructed frame keeps the default opcode, which is Close.) -/
def close (code : CloseCode) (reason : List Nat) : Frame :=
  let u := code.intoU16
  let payload :=
    if code = .Empty then []
    else ((u >>> 8) &&& 0xFF) :: (u &&& 0xFF) :: reason
  { Frame.default with payload := payload }

/-- First header byte written by `Frame::format`: FIN, RSV1-3 flag bits
OR'd with the opcode nibble. -/
def byteOne (f : Frame) : Nat :=
  (if f.finished then 0x80 else 0) |||
  (if f.rsv1 then 0x40 else 0) |||
  (if f.rsv2 then 0x20 else 0) |||
  (if f.rsv3 then 0x10 else 0) |||
  f.opcode.intoU8

/-- The 7-bit length field written into the second header byte. -/
def lenCode (n : Nat) : Nat :=
  if n < 126 then n else if n ≤ 65535 then 126 else 127

/-- Second header byte written by `Frame::format`: MASK bit OR'd with the
7-bit length field. -/
def byteTwo (f : Frame) : Nat :=
  (if f.mask.isSome then 0x80 else 0) ||| lenCode f.payload.length

/-- Extended-length bytes written by `Frame::format`: none for lengths
< 126, big-endian u16 for lengths up to 65535, big-endian u64 otherwise. -/
def extBytes (n : Nat) : List Nat :=
  if n < 126 then []
  else if n ≤ 65535 then [(n >>> 8) &&& 0xFF, n &&& 0xFF]
  else [(n >>> 56) &&& 0xFF, (n >>> 48) &&& 0xFF, (n >>> 40) &&& 0xFF,
        (n >>> 32) &&& 0xFF, (n >>> 24) &&& 0xFF, (n >>> 16) &&& 0xFF,
        (n >>> 8) &&& 0xFF, n &&& 0xFF]

/-- `Frame::format`: the two header bytes, the extended-length bytes, then
for a masked frame the 4 mask bytes followed by the XOR-masked payload,
else the raw payload. -/
def format (f : Frame) : List Nat :=
  [f.byteOne, f.byteTwo] ++ extBytes f.payload.length ++
  (match f.mask with
   | some m => m ++ applyMask m 0 f.payload
   | none => f.payload)

/-- A legal frame per spec section 3: a real opcode, control frames final
with payload at most 125 bytes, payload length representable in the u64
length field, and a structurally well-formed (4-byte) mask when present. -/
def legal (f : Frame) : Prop :=
  f.opcode ≠ .Bad ∧
  (f.opcode.isControl = true → f.payload.length ≤ 125 ∧ f.finished = true) ∧
  f.payload.length < 2 ^ 64 ∧
  (match f.mask with
   | some m => m.length = 4
   | none => True)

instance (f : Frame) : Decidable f.legal := by
  unfold legal
  cases f.mask <;> exact inferInstance

end Frame

/-- An `std::io::Cursor<Vec<u8>>`: a byte buffer plus a read position. -/
structure ByteCursor where
  buf : List Nat
  pos : Nat
  deriving DecidableEq, Repr

/-- `Read::read` on a cursor: take up to `n` bytes from the current
position and advance the position by the number of bytes taken. -/
def ByteCursor.readBytes (c : ByteCursor) (n : Nat) : List Nat × ByteCursor :=
  let bs := (c.buf.drop c.pos).take n
  (bs, { c with pos := c.pos + bs.length })

/-- Big-endian value of a byte list (`u16::from_be` / `u64::from_be`). -/
def beVal (bs : List Nat) : Nat :=
  bs.foldl (fun a b => a * 256 + b) 0

/-- The tail of `Frame::parse` after the mask has been read: the
remaining-size check (restoring the cursor and yielding no frame on a
short buffer) followed by the payload copy. -/
def Frame.parseTail (size initial : Nat) (finished rsv1 rsv2 rsv3 : Bool)
    (opcode : OpCode) (mask : Option (List Nat)) (length header_length : Nat)
    (c : ByteCursor) : Except Kind (Option Frame) × ByteCursor :=
  if size < length + header_length then (.ok none, { c with pos := initial })
  else
    let r := c.readBytes length
    (.ok (some { finished := finished, rsv1 := rsv1, rsv2 := rsv2, rsv3 := rsv3,
                 opcode := opcode, mask := mask, payload := r.1 }), r.2)

/-- The middle of `Frame::parse`: the control-frame length check, then the
mask read (restoring the cursor and yielding no frame on a short read). -/
def Frame.parseRest (size initial : Nat) (finished rsv1 rsv2 rsv3 : Bool)
    (opcode : OpCode) (masked : Bool) (length header_length : Nat)
    (c : ByteCursor) : Except Kind (Option Frame) × ByteCursor :=
  if opcode.isControl = true ∧ length > 125 then (.error .Protocol, c)
  else if masked then
    let r := c.readBytes 4
    if r.1.length ≠ 4 then (.ok none, { r.2 with pos := initial })
    else Frame.parseTail size initial finished rsv1 rsv2 rsv3 opcode (some r.1)
           length (header_length + 4) r.2
  else Frame.parseTail size initial finished rsv1 rsv2 rsv3 opcode none
         length header_length c

/-- `Frame::parse`: read the 2 header bytes, extract FIN/RSV/opcode/MASK
and the 7-bit length, read the extended length when the field is 126/127,
then delegate to `parseRest`. Every short read restores the cursor to the
initial position and yields no frame; a `Bad` opcode is a protocol
error. -/
def Frame.parse (c0 : ByteCursor) : Except Kind (Option Frame) × ByteCursor :=
  let size := c0.buf.length - c0.pos
  let initial := c0.pos
  let r1 := c0.readBytes 2
  if r1.1.length ≠ 2 then (.ok none, { r1.2 with pos := initial })
  else
    let first := r1.1.getD 0 0
    let second := r1.1.getD 1 0
    let finished := first &&& 0x80 != 0
    let rsv1 := first &&& 0x40 != 0
    let rsv2 := first &&& 0x20 != 0
    let rsv3 := first &&& 0x10 != 0
    let opcode := OpCode.fromU8 (first &&& 0x0F)
    if opcode = .Bad then (.error .Protocol, r1.2)
    else
      let masked := second &&& 0x80 != 0
      let len0 := second &&& 0x7F
      if len0 = 126 then
        let r2 := r1.2.readBytes 2
        if r2.1.length ≠ 2 then (.ok none, { r2.2 with pos := initial })
        else Frame.parseRest size initial finished rsv1 rsv2 rsv3 opcode masked
               (beVal r2.1) 4 r2.2
      else if len0 = 127 then
        let r2 := r1.2.readBytes 8
        if r2.1.length ≠ 8 then (.ok none, { r2.2 with pos := initial })
        else Frame.parseRest size initial finished rsv1 rsv2 rsv3 opcode masked
               (beVal r2.1) 10 r2.2
      else Frame.parseRest size initial finished rsv1 rsv2 rsv3 opcode masked
             len0 2 r1.2

/-! ### Basic lemmas about the frame codec -/

theorem applyMask_length (mask : List Nat) :
    ∀ i buf, (applyMask mask i buf).length = buf.length := by
  intro i buf
  induction buf generalizing i with
  | nil => rfl
  | cons b rest ih => simp [applyMask, ih]

theorem applyMask_applyMask (mask : List Nat) :
    ∀ i buf, applyMask mask i (applyMask mask i buf) = buf := by
  intro i buf
  induction buf generalizing i with
  | nil => rfl
  | cons b rest ih => simp [applyMask, ih, Nat.xor_cancel_right]

theorem and255_eq_mod (n : Nat) : n &&& 0xFF = n % 256 := by
  have := Nat.and_pow_two_sub_one_eq_mod n 8
  norm_num at this
  omega

theorem beVal2 (n : Nat) (h : n ≤ 65535) :
    beVal [(n >>> 8) &&& 0xFF, n &&& 0xFF] = n := by
  simp only [beVal, List.foldl, and255_eq_mod, Nat.shiftRight_eq_div_pow]
  norm_num
  omega

theorem beVal8 (n : Nat) (h : n < 2 ^ 64) :
    beVal [(n >>> 56) &&& 0xFF, (n >>> 48) &&& 0xFF, (n >>> 40) &&& 0xFF,
           (n >>> 32) &&& 0xFF, (n >>> 24) &&& 0xFF, (n >>> 16) &&& 0xFF,
           (n >>> 8) &&& 0xFF, n &&& 0xFF] = n := by
  simp only [beVal, List.foldl, and255_eq_mod, Nat.shiftRight_eq_div_pow]
  norm_num
  omega

theorem lenCode_le (n : Nat) : Frame.lenCode n ≤ 127 := by
  unfold Frame.lenCode
  split_ifs <;> omega

theorem byteOne_fin (f : Frame) : (f.byteOne &&& 0x80 != 0) = f.finished := by
  rcases f with ⟨fin, r1, r2, r3, op, mk, pl⟩
  cases fin <;> cases r1 <;> cases r2 <;> cases r3 <;> cases op
  all_goals (simp [Frame.byteOne, OpCode.intoU8]) <;> decide

theorem byteOne_rsv1 (f : Frame) : (f.byteOne &&& 0x40 != 0) = f.rsv1 := by
  rcases f with ⟨fin, r1, r2, r3, op, mk, pl⟩
  cases fin <;> cases r1 <;> cases r2 <;> cases r3 <;> cases op
  all_goals (simp [Frame.byteOne, OpCode.intoU8]) <;> decide

theorem byteOne_rsv2 (f : Frame) : (f.byteOne &&& 0x20 != 0) = f.rsv2 := by
  rcases f with ⟨fin, r1, r2, r3, op, mk, pl⟩
  cases fin <;> cases r1 <;> cases r2 <;> cases r3 <;> cases op
  all_goals (simp [Frame.byteOne, OpCode.intoU8]) <;> decide

theorem byteOne_rsv3 (f : Frame) : (f.byteOne &&& 0x10 != 0) = f.rsv3 := by
  rcases f with ⟨fin, r1, r2, r3, op, mk, pl⟩
  cases fin <;> cases r1 <;> cases r2 <;> cases r3 <;> cases op
  all_goals (simp [Frame.byteOne, OpCode.intoU8]) <;> decide

theorem byteOne_opcode (f : Frame) (h : f.opcode ≠ .Bad) :
    OpCode.fromU8 (f.byteOne &&& 0x0F) = f.opcode := by
  rcases f with ⟨fin, r1, r2, r3, op, mk, pl⟩
  cases fin <;> cases r1 <;> cases r2 <;> cases r3 <;> cases op
  all_goals first
    | exact absurd rfl h
    | ((simp [Frame.byteOne, OpCode.intoU8, OpCode.fromU8]) <;> decide)

theorem or128_and127 (L : Nat) (h : L ≤ 127) : (128 ||| L) &&& 127 = L := by
  interval_cases L <;> decide

theorem or128_and128 (L : Nat) (h : L ≤ 127) : ((128 ||| L) &&& 128 != 0) = true := by
  interval_cases L <;> decide

theorem small_and127 (L : Nat) (h : L ≤ 127) : L &&& 127 = L := by
  interval_cases L <;> decide

theorem small_and128 (L : Nat) (h : L ≤ 127) : (L &&& 128 != 0) = false := by
  interval_cases L <;> decide

theorem byteTwo_masked (f : Frame) : (f.byteTwo &&& 0x80 != 0) = f.mask.isSome := by
  have hL := lenCode_le f.payload.length
  cases hm : f.mask with
  | none => simp [Frame.byteTwo, hm, Nat.zero_or, small_and128 _ hL]
  | some m => simp [Frame.byteTwo, hm, or128_and128 _ hL]

theorem byteTwo_len (f : Frame) : f.byteTwo &&& 0x7F = Frame.lenCode f.payload.length := by
  have hL := lenCode_le f.payload.length
  cases hm : f.mask with
  | none => simp [Frame.byteTwo, hm, Nat.zero_or, small_and127 _ hL]
  | some m => simp [Frame.byteTwo, hm, or128_and127 _ hL]

/-- The body written after the two header bytes and the extended length. -/
def Frame.maskAndBody (f : Frame) : List Nat :=
  match f.mask with
  | some m => m ++ applyMask m 0 f.payload
  | none => f.payload

theorem format_eq (f : Frame) :
    f.format = f.byteOne :: f.byteTwo :: (Frame.extBytes f.payload.length ++ f.maskAndBody) := by
  cases hm : f.mask <;> simp [Frame.format, Frame.maskAndBody, hm]

theorem maskAndBody_length (f : Frame) (h4 : match f.mask with
    | some m => m.length = 4
    | none => True) :
    f.maskAndBody.length = (if f.mask.isSome then 4 else 0) + f.payload.length := by
  cases hm : f.mask with
  | none => simp [Frame.maskAndBody, hm]
  | some m =>
    rw [hm] at h4
    simp [Frame.maskAndBody, hm, applyMask_length, h4]

theorem extBytes_length (n : Nat) :
    (Frame.extBytes n).length = (if n > 125 then if n ≤ 65535 then 2 else 8 else 0) := by
  unfold Frame.extBytes
  split_ifs <;> simp_all <;> omega

theorem format_length (f : Frame) (h4 : match f.mask with
    | some m => m.length = 4
    | none => True) :
    f.format.length = f.len := by
  rw [format_eq]
  simp only [List.length_cons, List.length_append, maskAndBody_length f h4,
    extBytes_length, Frame.len]
  omega

/-! ### Cursor read lemmas -/

theorem readBytes_append (l₁ l₂ : List Nat) (n : Nat) (h : n ≤ l₂.length) :
    ByteCursor.readBytes ⟨l₁ ++ l₂, l₁.length⟩ n
      = (l₂.take n, ⟨l₁ ++ l₂, l₁.length + n⟩) := by
  simp [ByteCursor.readBytes, List.drop_left, List.length_take, Nat.min_eq_left h]

theorem readBytes_short (l₁ l₂ : List Nat) (n : Nat) (h : l₂.length < n) :
    ByteCursor.readBytes ⟨l₁ ++ l₂, l₁.length⟩ n
      = (l₂, ⟨l₁ ++ l₂, l₁.length + l₂.length⟩) := by
  simp [ByteCursor.readBytes, List.drop_left, List.take_of_length_le (Nat.le_of_lt h)]

/-- The payload as it appears on the wire: XOR-masked when a mask is
present, raw otherwise. -/
def maskedView (mask : Option (List Nat)) (payload : List Nat) : List Nat :=
  match mask with
  | some m => applyMask m 0 payload
  | none => payload

/-- `parse` inverts `format` on every legal frame: it consumes the whole
encoding and returns the frame with the wire (masked) payload. -/
theorem parse_format (f : Frame) (h : f.legal) :
    Frame.parse ⟨f.format, 0⟩ =
      (.ok (some { f with payload := maskedView f.mask f.payload }),
       ⟨f.format, f.format.length⟩) := by
  obtain ⟨hbad, hctl, h64, hmask4⟩ := h
  have hflen : f.format.length = f.len := format_length f hmask4
  rcases Nat.lt_or_ge f.payload.length 126 with hn | hn126
  -- small payload: no extended length bytes
  · have hctl2 : ¬(f.opcode.isControl = true ∧ f.payload.length > 125) := by
      rintro ⟨a, b⟩
      have := (hctl a).1
      omega
    have hext : Frame.extBytes f.payload.length = [] := by
      simp [Frame.extBytes, hn]
    have hlc : Frame.lenCode f.payload.length = f.payload.length := by
      simp [Frame.lenCode, hn]
    have hne126 : f.payload.length ≠ 126 := by omega
    have hne127 : f.payload.length ≠ 127 := by omega
    cases hm : f.mask with
    | none =>
      have hfmt : f.format = f.byteOne :: f.byteTwo :: f.payload := by
        rw [format_eq, hext]
        simp [Frame.maskAndBody, hm]
      rw [hfmt] at hflen ⊢
      simp only [Frame.parse, ByteCursor.readBytes, List.drop_zero]
      norm_num [byteOne_fin, byteOne_rsv1, byteOne_rsv2, byteOne_rsv3,
        byteOne_opcode f hbad, byteTwo_masked, byteTwo_len, hlc, hm, hbad, hne126, hne127,
        Frame.parseRest, Frame.parseTail, hctl2]
      constructor
      · simp [ByteCursor.readBytes, List.drop_succ_cons, List.drop_zero, List.take_length,
          maskedView, hm]
      · simp [ByteCursor.readBytes, List.drop_succ_cons, List.drop_zero, List.take_length]
        omega
    | some m =>
      have hm4 : m.length = 4 := by
        rw [hm] at hmask4
        exact hmask4
      have hbody : (applyMask m 0 f.payload).length = f.payload.length := applyMask_length m 0 _
      have hfmt : f.format = f.byteOne :: f.byteTwo :: (m ++ applyMask m 0 f.payload) := by
        rw [format_eq, hext]
        simp [Frame.maskAndBody, hm]
      rw [hfmt] at hflen ⊢
      simp only [Frame.parse, ByteCursor.readBytes, List.drop_zero]
      norm_num [byteOne_fin, byteOne_rsv1, byteOne_rsv2, byteOne_rsv3,
        byteOne_opcode f hbad, byteTwo_masked, byteTwo_len, hlc, hm, hbad, hne126, hne127,
        Frame.parseRest, Frame.parseTail, hctl2]
      simp only [ByteCursor.readBytes, List.drop_succ_cons, List.drop_zero,
        List.take_left' hm4, hm4]
      rw [if_pos trivial]
      rw [if_neg (by simp [hbody, hm4]; omega)]
      norm_num
      rw [List.drop_left' hm4]
      rw [show List.take f.payload.length (applyMask m 0 f.payload) = applyMask m 0 f.payload from by
        rw [← hbody, List.take_length]]
      simp [hbody, hm4, maskedView, hm]
      omega
  · have hctl2 : ¬(f.opcode.isControl = true ∧ f.payload.length > 125) := by
      rintro ⟨a, b⟩
      have := (hctl a).1
      omega
    rcases le_or_lt f.payload.length 65535 with hn2 | hn3
    -- medium payload: 2-byte big-endian extended length
    · have hext : Frame.extBytes f.payload.length
          = [(f.payload.length >>> 8) &&& 0xFF, f.payload.length &&& 0xFF] := by
        unfold Frame.extBytes
        rw [if_neg (by omega), if_pos hn2]
      have hlc : Frame.lenCode f.payload.length = 126 := by
        unfold Frame.lenCode
        rw [if_neg (by omega), if_pos hn2]
      have hbe : beVal [(f.payload.length >>> 8) &&& 0xFF, f.payload.length &&& 0xFF]
          = f.payload.length := beVal2 _ hn2
      cases hm : f.mask with
      | none =>
        have hfmt : f.format = f.byteOne :: f.byteTwo ::
            ((f.payload.length >>> 8) &&& 0xFF) :: (f.payload.length &&& 0xFF) :: f.payload := by
          rw [format_eq, hext]
          simp [Frame.maskAndBody, hm]
        rw [hfmt] at hflen ⊢
        simp only [Frame.parse, ByteCursor.readBytes, List.drop_zero]
        norm_num [byteOne_fin, byteOne_rsv1, byteOne_rsv2, byteOne_rsv3,
          byteOne_opcode f hbad, byteTwo_masked, byteTwo_len, hlc, hm, hbad,
          List.drop_succ_cons, hbe, Frame.parseRest, Frame.parseTail, hctl2]
        constructor
        · simp [ByteCursor.readBytes, List.drop_succ_cons, List.drop_zero, List.take_length,
            maskedView]
        · simp [ByteCursor.readBytes, List.drop_succ_cons, List.drop_zero, List.take_length]
          omega
      | some m =>
        have hm4 : m.length = 4 := by
          rw [hm] at hmask4
          exact hmask4
        have hbody : (applyMask m 0 f.payload).length = f.payload.length := applyMask_length m 0 _
        have hfmt : f.format = f.byteOne :: f.byteTwo ::
            ((f.payload.length >>> 8) &&& 0xFF) :: (f.payload.length &&& 0xFF) ::
            (m ++ applyMask m 0 f.payload) := by
          rw [format_eq, hext]
          simp [Frame.maskAndBody, hm]
        rw [hfmt] at hflen ⊢
        simp only [Frame.parse, ByteCursor.readBytes, List.drop_zero]
        norm_num [byteOne_fin, byteOne_rsv1, byteOne_rsv2, byteOne_rsv3,
          byteOne_opcode f hbad, byteTwo_masked, byteTwo_len, hlc, hm, hbad,
          List.drop_succ_cons, hbe, Frame.parseRest, Frame.parseTail, hctl2]
        simp only [ByteCursor.readBytes, List.drop_succ_cons, List.drop_zero,
          List.take_left' hm4, hm4]
        rw [if_pos trivial]
        rw [if_neg (by simp [hbody, hm4]; omega)]
        norm_num
        rw [List.drop_left' hm4]
        rw [show List.take f.payload.length (applyMask m 0 f.payload) = applyMask m 0 f.payload from by
          rw [← hbody, List.take_length]]
        simp [hbody, hm4, maskedView, hm]
        omega
    -- large payload: 8-byte big-endian extended length
    · have hext : Frame.extBytes f.payload.length
          = [(f.payload.length >>> 56) &&& 0xFF, (f.payload.length >>> 48) &&& 0xFF,
             (f.payload.length >>> 40) &&& 0xFF, (f.payload.length >>> 32) &&& 0xFF,
             (f.payload.length >>> 24) &&& 0xFF, (f.payload.length >>> 16) &&& 0xFF,
             (f.payload.length >>> 8) &&& 0xFF, f.payload.length &&& 0xFF] := by
        unfold Frame.extBytes
        rw [if_neg (by omega), if_neg (by omega)]
      have hlc : Frame.lenCode f.payload.length = 127 := by
        unfold Frame.lenCode
        rw [if_neg (by omega), if_neg (by omega)]
      have hbe : beVal [(f.payload.length >>> 56) &&& 0xFF, (f.payload.length >>> 48) &&& 0xFF,
             (f.payload.length >>> 40) &&& 0xFF, (f.payload.length >>> 32) &&& 0xFF,
             (f.payload.length >>> 24) &&& 0xFF, (f.payload.length >>> 16) &&& 0xFF,
             (f.payload.length >>> 8) &&& 0xFF, f.payload.length &&& 0xFF]
          = f.payload.length := beVal8 _ h64
      cases hm : f.mask with
      | none =>
        have hfmt : f.format = f.byteOne :: f.byteTwo ::
            ((f.payload.length >>> 56) &&& 0xFF) :: ((f.payload.length >>> 48) &&& 0xFF) ::
            ((f.payload.length >>> 40) &&& 0xFF) :: ((f.payload.length >>> 32) &&& 0xFF) ::
            ((f.payload.length >>> 24) &&& 0xFF) :: ((f.payload.length >>> 16) &&& 0xFF) ::
            ((f.payload.length >>> 8) &&& 0xFF) :: (f.payload.length &&& 0xFF) :: f.payload := by
          rw [format_eq, hext]
          simp [Frame.maskAndBody, hm]
        rw [hfmt] at hflen ⊢
        simp only [Frame.parse, ByteCursor.readBytes, List.drop_zero]
        norm_num [byteOne_fin, byteOne_rsv1, byteOne_rsv2, byteOne_rsv3,
          byteOne_opcode f hbad, byteTwo_masked, byteTwo_len, hlc, hm, hbad,
          List.drop_succ_cons, hbe, Frame.parseRest, Frame.parseTail, hctl2]
        constructor
        · simp [ByteCursor.readBytes, List.drop_succ_cons, List.drop_zero, List.take_length,
            maskedView]
        · simp [ByteCursor.readBytes, List.drop_succ_cons, List.drop_zero, List.take_length]
          omega
      | some m =>
        have hm4 : m.length = 4 := by
          rw [hm] at hmask4
          exact hmask4
        have hbody : (applyMask m 0 f.payload).length = f.payload.length := applyMask_length m 0 _
        have hfmt : f.format = f.byteOne :: f.byteTwo ::
            ((f.payload.length >>> 56) &&& 0xFF) :: ((f.payload.length >>> 48) &&& 0xFF) ::
            ((f.payload.length >>> 40) &&& 0xFF) :: ((f.payload.length >>> 32) &&& 0xFF) ::
            ((f.payload.length >>> 24) &&& 0xFF) :: ((f.payload.length >>> 16) &&& 0xFF) ::
            ((f.payload.length >>> 8) &&& 0xFF) :: (f.payload.length &&& 0xFF) ::
            (m ++ applyMask m 0 f.payload) := by
          rw [format_eq, hext]
          simp [Frame.maskAndBody, hm]
        rw [hfmt] at hflen ⊢
        simp only [Frame.parse, ByteCursor.readBytes, List.drop_zero]
        norm_num [byteOne_fin, byteOne_rsv1, byteOne_rsv2, byteOne_rsv3,
          byteOne_opcode f hbad, byteTwo_masked, byteTwo_len, hlc, hm, hbad,
          List.drop_succ_cons, hbe, Frame.parseRest, Frame.parseTail, hctl2]
        simp only [ByteCursor.readBytes, List.drop_succ_cons, List.drop_zero,
          List.take_left' hm4, hm4]
        rw [if_pos trivial]
        rw [if_neg (by simp [hbody, hm4]; omega)]
        norm_num
        rw [List.drop_left' hm4]
        rw [show List.take f.payload.length (applyMask m 0 f.payload) = applyMask m 0 f.payload from by
          rw [← hbody, List.take_length]]
        simp [hbody, hm4, maskedView, hm]
        omega


/-- Sample legal masked Text frame used as a concrete witness input. -/
def sampleMaskedFrame : Frame :=
  { finished := true, rsv1 := false, rsv2 := false, rsv3 := false,
    opcode := .Text, mask := some [1, 2, 3, 4], payload := [104, 105] }

/-- C1: for every legal frame `f` without a mask, parsing the bytes
produced by `format f` yields a frame with the same FIN, RSV bits, opcode
and payload; for every legal `f` with a mask set, parsing the bytes of
`format f` and then calling `remove_mask` on the result recovers the
original payload. -/
theorem claim_C1_frame_roundtrip (f : Frame) (h : f.legal) :
    ∃ g c2, Frame.parse ⟨f.format, 0⟩ = (.ok (some g), c2) ∧
      g.finished = f.finished ∧ g.rsv1 = f.rsv1 ∧ g.rsv2 = f.rsv2 ∧
      g.rsv3 = f.rsv3 ∧ g.opcode = f.opcode ∧
      (f.mask = none → g.payload = f.payload) ∧
      (f.mask ≠ none → g.remove_mask.payload = f.payload) := by
  refine ⟨_, _, parse_format f h, rfl, rfl, rfl, rfl, rfl, ?_, ?_⟩
  · intro hm
    simp [maskedView, hm]
  · intro hm
    rcases hmv : f.mask with _ | m
    · exact absurd hmv hm
    · simp [Frame.remove_mask, maskedView, hmv, applyMask_applyMask]

/-- Witness for C1 at a concrete legal masked frame. -/
theorem claim_C1_frame_roundtrip_witness :
    sampleMaskedFrame.legal ∧
    (∃ g c2, Frame.parse ⟨sampleMaskedFrame.format, 0⟩ = (.ok (some g), c2) ∧
      g.finished = sampleMaskedFrame.finished ∧ g.rsv1 = sampleMaskedFrame.rsv1 ∧
      g.rsv2 = sampleMaskedFrame.rsv2 ∧ g.rsv3 = sampleMaskedFrame.rsv3 ∧
      g.opcode = sampleMaskedFrame.opcode ∧
      (sampleMaskedFrame.mask = none → g.payload = sampleMaskedFrame.payload) ∧
      (sampleMaskedFrame.mask ≠ none →
        g.remove_mask.payload = sampleMaskedFrame.payload)) :=
  ⟨by decide, claim_C1_frame_roundtrip sampleMaskedFrame (by decide)⟩

/-- C9: the rsv3 setter as implemented assigns its argument to the `rsv1`
field and leaves the `rsv3` bit (and every other field except rsv1)
unchanged. -/
theorem claim_C9_set_rsv3_writes_rsv1 (f : Frame) (b : Bool) :
    (f.set_rsv3 b).rsv1 = b ∧
    (f.set_rsv3 b).rsv3 = f.rsv3 ∧
    (f.set_rsv3 b).finished = f.finished ∧
    (f.set_rsv3 b).rsv2 = f.rsv2 ∧
    (f.set_rsv3 b).opcode = f.opcode ∧
    (f.set_rsv3 b).mask = f.mask ∧
    (f.set_rsv3 b).payload = f.payload := by
  simp [Frame.set_rsv3]

theorem remove_mask_of_mask_none (f : Frame) (hm : f.mask = none) :
    f.remove_mask = f := by
  obtain ⟨fin, r1, r2, r3, op, mk, pl⟩ := f
  simp only [Frame.mask] at hm
  simp [Frame.remove_mask, hm]

theorem remove_mask_mask_none (f : Frame) : f.remove_mask.mask = none := by
  unfold Frame.remove_mask
  cases f.mask <;> rfl

/-- C10: `remove_mask` on a frame without a mask leaves it completely
unchanged; consequently `remove_mask` is idempotent. -/
theorem claim_C10_remove_mask_idempotent (f : Frame) :
    (f.mask = none → f.remove_mask = f) ∧
    f.remove_mask.remove_mask = f.remove_mask := by
  refine ⟨remove_mask_of_mask_none f, ?_⟩
  exact remove_mask_of_mask_none _ (remove_mask_mask_none f)

/-- Witness for C10 at a concrete maskless frame. -/
theorem claim_C10_remove_mask_idempotent_witness :
    (Frame.message [104, 105] .Text true).remove_mask = Frame.message [104, 105] .Text true ∧
    (Frame.message [104, 105] .Text true).remove_mask.remove_mask
      = (Frame.message [104, 105] .Text true).remove_mask :=
  ⟨(claim_C10_remove_mask_idempotent (Frame.message [104, 105] .Text true)).1 (by decide),
   (claim_C10_remove_mask_idempotent (Frame.message [104, 105] .Text true)).2⟩

/-- C2: `parse` on any strict prefix of `format f` (every prefix is
`(format f).take k`, and strictness is `k < f.len`) returns no frame and
restores the cursor to its initial position. -/
theorem claim_C2_partial_decode (f : Frame) (h : f.legal) (k : Nat) (hk : k < f.len) :
    Frame.parse ⟨f.format.take k, 0⟩ = (.ok none, ⟨f.format.take k, 0⟩) := by
  obtain ⟨hbad, hctl, h64, hmask4⟩ := h
  have hflen : f.format.length = f.len := format_length f hmask4
  rcases Nat.lt_or_ge k 2 with hk2 | hk2
  · -- fewer than the two header bytes
    simp only [Frame.parse, ByteCursor.readBytes, List.drop_zero]
    rw [if_pos (by simp [List.take_take, List.length_take] <;> omega)]
  · -- at least the two header bytes are present
    obtain ⟨k2, rfl⟩ : ∃ k2, k = k2 + 2 := ⟨k - 2, by omega⟩
    have hfe := format_eq f
    rw [hfe] at hflen ⊢
    simp only [List.take_succ_cons]
    simp only [Frame.parse, ByteCursor.readBytes, List.drop_zero]
    norm_num [byteOne_fin, byteOne_rsv1, byteOne_rsv2, byteOne_rsv3,
      byteOne_opcode f hbad, byteTwo_masked, byteTwo_len, hbad]
    have hctl2 : ¬(f.opcode.isControl = true ∧ f.payload.length > 125) := by
      rintro ⟨a, b⟩
      have := (hctl a).1
      omega
    rcases Nat.lt_or_ge f.payload.length 126 with hn | hn126
    -- small payload
    · have hlc : Frame.lenCode f.payload.length = f.payload.length := by
        simp [Frame.lenCode, hn]
      have hext : Frame.extBytes f.payload.length = [] := by
        simp [Frame.extBytes, hn]
      rw [hlc, hext]
      rw [if_neg (by omega), if_neg (by omega)]
      cases hm : f.mask with
      | none =>
        have hfl : f.len = 2 + f.payload.length := by
          unfold Frame.len
          rw [if_neg (by omega)]
          simp [hm]
        have hmb : f.maskAndBody = f.payload := by
          simp [Frame.maskAndBody, hm]
        rw [hmb]
        simp only [Frame.parseRest, Frame.parseTail, hm, Option.isSome_none,
          Bool.false_eq_true, if_false]
        rw [if_neg hctl2]
        rw [if_pos (by simp only [List.nil_append, List.length_nil]; omega)]
      | some m =>
        have hm4 : m.length = 4 := by
          rw [hm] at hmask4
          exact hmask4
        have hbody : (applyMask m 0 f.payload).length = f.payload.length :=
          applyMask_length m 0 _
        have hfl : f.len = 6 + f.payload.length := by
          unfold Frame.len
          rw [if_neg (by omega)]
          simp [hm]
        have hmb : f.maskAndBody = m ++ applyMask m 0 f.payload := by
          simp [Frame.maskAndBody, hm]
        rw [hmb]
        simp only [Frame.parseRest, Frame.parseTail, hm, Option.isSome_some, if_true,
          ByteCursor.readBytes, List.nil_append, List.drop_succ_cons, List.drop_zero,
          List.take_take, List.length_take, List.length_append, List.length_nil]
        rw [if_neg hctl2]
        rcases Nat.lt_or_ge k2 4 with hk4 | hk4
        · rw [if_pos (by rw [hm4, hbody]; omega)]
        · rw [if_neg (by rw [hm4, hbody]; omega)]
          rw [if_pos (by rw [hm4, hbody]; omega)]
    · rcases le_or_lt f.payload.length 65535 with hn2 | hn3
      -- medium payload: 2 extended length bytes
      · have hlc : Frame.lenCode f.payload.length = 126 := by
          unfold Frame.lenCode
          rw [if_neg (by omega), if_pos hn2]
        have hext : Frame.extBytes f.payload.length
            = [(f.payload.length >>> 8) &&& 0xFF, f.payload.length &&& 0xFF] := by
          unfold Frame.extBytes
          rw [if_neg (by omega), if_pos hn2]
        have hbe : beVal [(f.payload.length >>> 8) &&& 0xFF, f.payload.length &&& 0xFF]
            = f.payload.length := beVal2 _ hn2
        rw [hlc, hext]
        rw [if_pos rfl]
        rcases Nat.lt_or_ge k2 2 with hk3 | hk3
        · rw [if_pos (by intro hh; omega)]
        · rw [if_neg (by
            intro hh
            have h5 := hh hk3
            simp at h5)]
          have htk : List.take 2 (List.take k2
              ([(f.payload.length >>> 8) &&& 0xFF, f.payload.length &&& 0xFF] ++ f.maskAndBody))
              = [(f.payload.length >>> 8) &&& 0xFF, f.payload.length &&& 0xFF] := by
            rw [List.take_take, Nat.min_eq_left hk3, List.take_left' (by simp)]
          rw [htk, hbe]
          simp only [List.length_cons, List.length_nil]
          norm_num
          rw [show (2 : Nat) + 2 ⊓ (k2 ⊓ (2 + f.maskAndBody.length)) = 4 from by omega]
          cases hm : f.mask with
          | none =>
            have hfl : f.len = 4 + f.payload.length := by
              unfold Frame.len
              rw [if_pos (by omega), if_pos hn2]
              simp [hm]
            have hmb : f.maskAndBody = f.payload := by
              simp [Frame.maskAndBody, hm]
            rw [hmb]
            simp only [Frame.parseRest, Frame.parseTail, hm, Option.isSome_none,
              Bool.false_eq_true, if_false]
            rw [if_neg hctl2]
            rw [if_pos (by omega)]
          | some m =>
            have hm4 : m.length = 4 := by
              rw [hm] at hmask4
              exact hmask4
            have hbody : (applyMask m 0 f.payload).length = f.payload.length :=
              applyMask_length m 0 _
            have hfl : f.len = 8 + f.payload.length := by
              unfold Frame.len
              rw [if_pos (by omega), if_pos hn2]
              simp [hm]
            have hmb : f.maskAndBody = m ++ applyMask m 0 f.payload := by
              simp [Frame.maskAndBody, hm]
            rw [hmb]
            simp only [Frame.parseRest, Frame.parseTail, hm, Option.isSome_some, if_true,
              ByteCursor.readBytes, List.drop_succ_cons, List.drop_take,
              List.drop_left' (show ([(f.payload.length >>> 8) &&& 0xFF,
                f.payload.length &&& 0xFF] : List Nat).length = 2 from by simp),
              List.take_take, List.length_take, List.length_append]
            rw [if_neg hctl2]
            rcases Nat.lt_or_ge k2 6 with hk6 | hk6
            · rw [if_pos (by simp [hm4, hbody]; omega)]
            · rw [if_neg (by simp [hm4, hbody]; omega)]
              rw [if_pos (by simp [hm4, hbody]; omega)]
      -- large payload: 8 extended length bytes
      · have hlc : Frame.lenCode f.payload.length = 127 := by
          unfold Frame.lenCode
          rw [if_neg (by omega), if_neg (by omega)]
        have hext : Frame.extBytes f.payload.length
            = [(f.payload.length >>> 56) &&& 0xFF, (f.payload.length >>> 48) &&& 0xFF,
               (f.payload.length >>> 40) &&& 0xFF, (f.payload.length >>> 32) &&& 0xFF,
               (f.payload.length >>> 24) &&& 0xFF, (f.payload.length >>> 16) &&& 0xFF,
               (f.payload.length >>> 8) &&& 0xFF, f.payload.length &&& 0xFF] := by
          unfold Frame.extBytes
          rw [if_neg (by omega), if_neg (by omega)]
        have hbe : beVal [(f.payload.length >>> 56) &&& 0xFF, (f.payload.length >>> 48) &&& 0xFF,
               (f.payload.length >>> 40) &&& 0xFF, (f.payload.length >>> 32) &&& 0xFF,
               (f.payload.length >>> 24) &&& 0xFF, (f.payload.length >>> 16) &&& 0xFF,
               (f.payload.length >>> 8) &&& 0xFF, f.payload.length &&& 0xFF]
            = f.payload.length := beVal8 _ h64
        rw [hlc, hext]
        rw [if_neg (by omega), if_pos rfl]
        rcases Nat.lt_or_ge k2 8 with hk3 | hk3
        · rw [if_pos (by intro hh; omega)]
        · rw [if_neg (by
            intro hh
            have h5 := hh hk3
            simp at h5)]
          have htk : List.take 8 (List.take k2
              ([(f.payload.length >>> 56) &&& 0xFF, (f.payload.length >>> 48) &&& 0xFF,
                (f.payload.length >>> 40) &&& 0xFF, (f.payload.length >>> 32) &&& 0xFF,
                (f.payload.length >>> 24) &&& 0xFF, (f.payload.length >>> 16) &&& 0xFF,
                (f.payload.length >>> 8) &&& 0xFF, f.payload.length &&& 0xFF] ++ f.maskAndBody))
              = [(f.payload.length >>> 56) &&& 0xFF, (f.payload.length >>> 48) &&& 0xFF,
                (f.payload.length >>> 40) &&& 0xFF, (f.payload.length >>> 32) &&& 0xFF,
                (f.payload.length >>> 24) &&& 0xFF, (f.payload.length >>> 16) &&& 0xFF,
                (f.payload.length >>> 8) &&& 0xFF, f.payload.length &&& 0xFF] := by
            rw [List.take_take, Nat.min_eq_left hk3, List.take_left' (by simp)]
          rw [htk, hbe]
          simp only [List.length_cons, List.length_nil]
          norm_num
          rw [show (2 : Nat) + 8 ⊓ (k2 ⊓ (8 + f.maskAndBody.length)) = 10 from by omega]
          cases hm : f.mask with
          | none =>
            have hfl : f.len = 10 + f.payload.length := by
              unfold Frame.len
              rw [if_pos (by omega), if_neg (by omega)]
              simp [hm]
            have hmb : f.maskAndBody = f.payload := by
              simp [Frame.maskAndBody, hm]
            rw [hmb]
            simp only [Frame.parseRest, Frame.parseTail, hm, Option.isSome_none,
              Bool.false_eq_true, if_false]
            rw [if_neg hctl2]
            rw [if_pos (by omega)]
          | some m =>
            have hm4 : m.length = 4 := by
              rw [hm] at hmask4
              exact hmask4
            have hbody : (applyMask m 0 f.payload).length = f.payload.length :=
              applyMask_length m 0 _
            have hfl : f.len = 14 + f.payload.length := by
              unfold Frame.len
              rw [if_pos (by omega), if_neg (by omega)]
              simp [hm]
            have hmb : f.maskAndBody = m ++ applyMask m 0 f.payload := by
              simp [Frame.maskAndBody, hm]
            rw [hmb]
            simp only [Frame.parseRest, Frame.parseTail, hm, Option.isSome_some, if_true,
              ByteCursor.readBytes, List.drop_succ_cons, List.drop_take,
              List.drop_left' (show ([(f.payload.length >>> 56) &&& 0xFF,
                (f.payload.length >>> 48) &&& 0xFF, (f.payload.length >>> 40) &&& 0xFF,
                (f.payload.length >>> 32) &&& 0xFF, (f.payload.length >>> 24) &&& 0xFF,
                (f.payload.length >>> 16) &&& 0xFF, (f.payload.length >>> 8) &&& 0xFF,
                f.payload.length &&& 0xFF] : List Nat).length = 8 from by simp),
              List.take_take, List.length_take, List.length_append]
            rw [if_neg hctl2]
            rcases Nat.lt_or_ge k2 12 with hk6 | hk6
            · rw [if_pos (by simp [hm4, hbody]; omega)]
            · rw [if_neg (by simp [hm4, hbody]; omega)]
              rw [if_pos (by simp [hm4, hbody]; omega)]

/-- Witness for C2: a 3-byte prefix of the sample masked frame's encoding
parses to no frame and leaves the cursor at position 0. -/
theorem claim_C2_partial_decode_witness :
    Frame.parse ⟨sampleMaskedFrame.format.take 3, 0⟩
      = (.ok none, ⟨sampleMaskedFrame.format.take 3, 0⟩) :=
  claim_C2_partial_decode sampleMaskedFrame (by decide) 3 (by decide)


/-! ### Connection engine model (connection.rs) -/

/-- The mio `EventSet` restricted to the flags the engine manipulates. -/
structure EventSet where
  readable : Bool
  writable : Bool
  hup : Bool
  deriving DecidableEq, Repr

/-- The connection `State`: Connecting holds the handshake request and
response buffers. -/
inductive ConnState
  | Connecting (req res : ByteCursor)
  | Open
  | Closing
  deriving DecidableEq, Repr

def ConnState.is_connecting : ConnState → Bool
  | .Connecting _ _ => true
  | _ => false

def ConnState.is_closing : ConnState → Bool
  | .Closing => true
  | _ => false

inductive Endpoint
  | Client
  | Server
  deriving DecidableEq, Repr

/-- The `Settings` options used by the modelled operations. -/
structure Settings where
  fragment_size : Nat
  out_buffer_capacity : Nat
  out_buffer_grow : Bool
  deriving DecidableEq, Repr

/-- A `Cursor<Vec<u8>>` for output: data, read position, and the vector's
allocated capacity (which `check_buffer_out` inspects). -/
structure OutBuf where
  data : List Nat
  pos : Nat
  cap : Nat
  deriving DecidableEq, Repr

/-- The fields of `Connection` that the modelled operations read or
write. The handler is a pass-through (identity) handler, as the claims
stipulate; its calls are recorded as `Action`s where observable. -/
structure Connection where
  state : ConnState
  endpoint : Endpoint
  events : EventSet
  fragments : List Frame
  out_buffer : OutBuf
  settings : Settings
  deriving DecidableEq, Repr

/-- `Connection::check_buffer_out`: when the output vector lacks room for
the frame, allocate a new vector with the OLD buffer's capacity
(connection.rs line 852), copy in the unsent tail from the read position
onward; if the tail already fills it, grow by `out_buffer_capacity` when
`out_buffer_grow` is set, else fail with a Capacity error.
`Vec::with_capacity`/`reserve` are modelled with their guaranteed
(minimum) capacities. -/
def Connection.check_buffer_out (c : Connection) (frame : Frame) : Except Kind Connection :=
  if c.out_buffer.cap ≤ c.out_buffer.data.length + frame.len then
    let newData := c.out_buffer.data.drop c.out_buffer.pos
    let newCap := max c.out_buffer.cap newData.length
    if newData.length = newCap then
      if c.settings.out_buffer_grow then
        .ok { c with out_buffer :=
          { data := newData, pos := 0, cap := newData.length + c.settings.out_buffer_capacity } }
      else .error .Capacity
    else .ok { c with out_buffer := { data := newData, pos := 0, cap := newCap } }
  else .ok c

/-- `Connection::buffer_frame` with a pass-through `on_send_frame`
handler; `rng` is the random 4-byte mask draw used when the endpoint is a
client. The frame is formatted at the end of the buffer while the read
position is preserved; `Vec` growth during the write is modelled as least
growth. -/
def Connection.buffer_frame (c : Connection) (frame : Frame) (rng : List Nat) :
    Except Kind Connection :=
  match c.check_buffer_out frame with
  | .error e => .error e
  | .ok c1 =>
    let frame1 := if c1.endpoint = .Client then frame.set_mask rng else frame
    let bytes := frame1.format
    .ok { c1 with out_buffer :=
      { data := c1.out_buffer.data ++ bytes,
        pos := c1.out_buffer.pos,
        cap := max c1.out_buffer.cap (c1.out_buffer.data.length + bytes.length) } }

/-- `Connection::check_events`: while not Connecting, insert readable into
the desired set, and insert writable when the out buffer has pending
bytes. -/
def Connection.check_events (c : Connection) : Connection :=
  if c.state.is_connecting then c
  else
    let ev1 := { c.events with readable := true }
    let ev2 := if c.out_buffer.pos < c.out_buffer.data.length
               then { ev1 with writable := true } else ev1
    { c with events := ev2 }

/-- `Connection::send_ping`. -/
def Connection.send_ping (c : Connection) (data rng : List Nat) : Except Kind Connection :=
  (c.buffer_frame (Frame.ping data) rng).map Connection.check_events

/-- `Connection::send_pong`: a no-op returning Ok while Closing, else
enqueue a Pong frame and recompute events. -/
def Connection.send_pong (c : Connection) (data rng : List Nat) : Except Kind Connection :=
  if c.state.is_closing then .ok c
  else (c.buffer_frame (Frame.pong data) rng).map Connection.check_events

/-- `Connection::send_close`: enqueue a Close frame, transition the state
to Closing, recompute events. -/
def Connection.send_close (c : Connection) (code : CloseCode) (reason rng : List Nat) :
    Except Kind Connection :=
  (c.buffer_frame (Frame.close code reason) rng).map
    (fun c1 => Connection.check_events { c1 with state := .Closing })

/-- Fuel-driven worker for `chunks`; the fuel bounds the number of
chunks. -/
def chunksGo (F : Nat) : Nat → List Nat → List (List Nat)
  | 0, _ => []
  | _, [] => []
  | fuel + 1, a :: r => ((a :: r).take F) :: chunksGo F fuel ((a :: r).drop F)

/-- `slice::chunks(F)`: consecutive chunks of `F` bytes, the last possibly
shorter. Rust panics on `F = 0`; the fuel keeps the model total, and every
lemma assumes `0 < F`. -/
def chunks (data : List Nat) (F : Nat) : List (List Nat) :=
  chunksGo F data.length data

/-- The `while let` loop of `send_message`: each remaining chunk becomes a
Continue frame, with FIN only on the last one. -/
def continueFrames : List (List Nat) → List Frame
  | [] => []
  | [chunk] => [Frame.message chunk .Continue true]
  | chunk :: rest => Frame.message chunk .Continue false :: continueFrames rest

/-- The frame sequence `Connection::send_message` passes to
`buffer_frame`: payloads larger than `fragment_size` are chunked, the
first chunk carrying the message's real opcode with FIN=0 and the rest
Continue frames; otherwise a single final frame. -/
def sendMessageFrames (data : List Nat) (opcode : OpCode) (F : Nat) : List Frame :=
  if data.length > F then
    match chunks data F with
    | [] => []
    | first :: rest => Frame.message first opcode false :: continueFrames rest
  else [Frame.message data opcode true]

/-- `Connection::send_message` (the opcode and payload of the `Message`
are passed directly; message.rs only wraps them): buffer every fragment,
then recompute events. -/
def Connection.send_message (c : Connection) (opcode : OpCode) (data rng : List Nat) :
    Except Kind Connection :=
  ((sendMessageFrames data opcode c.settings.fragment_size).foldlM
    (fun (cc : Connection) fr => cc.buffer_frame fr rng) c).map Connection.check_events

/-- UTF-8 validity of a byte sequence, as decided by Rust's
`str::from_utf8` (the UTF-8 standard: no overlong forms, no surrogates,
max U+10FFFF). -/
def validUtf8 : List Nat → Bool
  | [] => true
  | b :: rest =>
    if b < 0x80 then validUtf8 rest
    else if b < 0xC2 then false
    else if b < 0xE0 then
      match rest with
      | b1 :: r => if 0x80 ≤ b1 ∧ b1 < 0xC0 then validUtf8 r else false
      | [] => false
    else if b < 0xF0 then
      match rest with
      | b1 :: b2 :: r =>
        if ((if b = 0xE0 then 0xA0 else 0x80) ≤ b1 ∧
            b1 < (if b = 0xED then 0xA0 else 0xC0)) ∧
           (0x80 ≤ b2 ∧ b2 < 0xC0) then validUtf8 r else false
      | _ => false
    else if b < 0xF5 then
      match rest with
      | b1 :: b2 :: b3 :: r =>
        if ((if b = 0xF0 then 0x90 else 0x80) ≤ b1 ∧
            b1 < (if b = 0xF4 then 0x90 else 0xC0)) ∧
           (0x80 ≤ b2 ∧ b2 < 0xC0) ∧ (0x80 ≤ b3 ∧ b3 < 0xC0) then validUtf8 r else false
      | _ => false
    else false

/-- The reason string passed to `on_close` when a Close payload is too
short to carry a code (connection.rs line 642), as ASCII bytes:
"Unable to read close code. Sending empty close frame." -/
def unreadableCloseMsg : List Nat :=
  [85, 110, 97, 98, 108, 101, 32, 116, 111, 32, 114, 101, 97, 100, 32, 99,
   108, 111, 115, 101, 32, 99, 111, 100, 101, 46, 32, 83, 101, 110, 100,
   105, 110, 103, 32, 101, 109, 112, 116, 121, 32, 99, 108, 111, 115, 101,
   32, 102, 114, 97, 109, 101, 46]

/-- The reserved/disallowed close-code test applied to a decoded
`Other(code)` (connection.rs lines 599-608). -/
def CloseCode.isInvalidOnWire : CloseCode → Bool
  | .Other oc => decide (oc < 1000 ∨ 5000 ≤ oc ∨ oc = 1004 ∨ oc = 1014 ∨
      oc = 1016 ∨ oc = 1100 ∨ oc = 2000 ∨ oc = 2999)
  | _ => false

/-- Observable actions recorded while a received Close frame is handled:
the `on_close` handler call and the `send_close` reply. -/
inductive Action
  | onCloseCall (code : CloseCode) (reason : List Nat)
  | sendCloseCall (code : CloseCode) (reason : List Nat)
  deriving DecidableEq, Repr

/-- The Close arm of `Connection::read_frames` (connection.rs lines
586-647) for a received final Close frame, with a pass-through `on_frame`
handler: skip everything while Closing; read the 2-byte big-endian close
code (too-short payloads are not an error: `on_close(Status, msg)` then
`send_close(Empty, "")`); reject reserved `Other` codes before `on_close`;
call `on_close` with the UTF-8 reason (or empty); then reject
Abnormal/Status/Restart/Again/Tls; otherwise echo via `send_close` with
the received code (or Invalid when the reason was not UTF-8). -/
def Connection.processClose (c : Connection) (frame : Frame) (rng : List Nat) :
    List Action × Except Kind Connection :=
  if c.state.is_closing then ([], .ok c)
  else
    let data := frame.payload
    if 2 ≤ data.length then
      let code := data.getD 0 0 * 256 + data.getD 1 0
      let named := CloseCode.fromU16 code
      if named.isInvalidOnWire then ([], .error .Protocol)
      else
        let valid := validUtf8 (data.drop 2)
        let reason := if valid then data.drop 2 else []
        let tr := [Action.onCloseCall named reason]
        if named = .Abnormal ∨ named = .Status ∨ named = .Restart ∨
           named = .Again ∨ named = .Tls then
          (tr, .error .Protocol)
        else
          let echo := if valid then named else CloseCode.Invalid
          (tr ++ [Action.sendCloseCall echo []], c.send_close echo [] rng)
    else
      ([Action.onCloseCall .Status unreadableCloseMsg,
        Action.sendCloseCall .Empty []],
       c.send_close .Empty [] rng)


/-- Concrete connection used by counterexamples and witnesses: Open
server endpoint, writable already set in the desired events, empty output
buffer with capacity 100. -/
def connOpen : Connection :=
  { state := .Open, endpoint := .Server,
    events := { readable := false, writable := true, hup := true },
    fragments := [],
    out_buffer := { data := [], pos := 0, cap := 100 },
    settings := { fragment_size := 10, out_buffer_capacity := 100, out_buffer_grow := true } }

/-- C7 counterexample: with writable already in the desired set and an
empty out buffer, `check_events` (state Open) leaves writable set even
though no bytes are pending, so "writable iff pending bytes" fails. -/
theorem claim_C7_counterexample :
    (connOpen.check_events).events.writable = true ∧
    ¬(connOpen.out_buffer.pos < connOpen.out_buffer.data.length) := by decide

/-- C7 (amended): after `check_events` in a state other than Connecting,
the desired set contains readable, and it contains writable iff the out
buffer has pending bytes OR writable was already present (`check_events`
only ever inserts writable, it never removes it); all other connection
fields are unchanged. -/
theorem claim_C7_check_events (c : Connection) (h : c.state.is_connecting = false) :
    (c.check_events).events.readable = true ∧
    ((c.check_events).events.writable = true ↔
      (c.out_buffer.pos < c.out_buffer.data.length ∨ c.events.writable = true)) ∧
    (c.check_events).state = c.state ∧
    (c.check_events).out_buffer = c.out_buffer ∧
    (c.check_events).fragments = c.fragments ∧
    (c.check_events).settings = c.settings ∧
    (c.check_events).endpoint = c.endpoint := by
  unfold Connection.check_events
  rw [h]
  simp only [Bool.false_eq_true, if_false]
  split_ifs with hw
  · simp [hw]
  · simp [hw]

/-- Witness for C7 at the concrete open connection. -/
theorem claim_C7_check_events_witness :
    (connOpen.check_events).events.readable = true ∧
    ((connOpen.check_events).events.writable = true ↔
      (connOpen.out_buffer.pos < connOpen.out_buffer.data.length ∨
        connOpen.events.writable = true)) ∧
    (connOpen.check_events).state = connOpen.state ∧
    (connOpen.check_events).out_buffer = connOpen.out_buffer ∧
    (connOpen.check_events).fragments = connOpen.fragments ∧
    (connOpen.check_events).settings = connOpen.settings ∧
    (connOpen.check_events).endpoint = connOpen.endpoint :=
  claim_C7_check_events connOpen (by decide)

/-- C8: while Closing, `send_pong` returns Ok with the connection
completely unchanged; in any other state it enqueues a Pong control frame
(it delegates to `buffer_frame` with `Frame.pong data`, and for a server
endpoint with room in the buffer the Pong frame's encoded bytes are
appended to `out_buffer`). -/
theorem claim_C8_send_pong (c : Connection) (data rng : List Nat) :
    (c.state = .Closing → c.send_pong data rng = .ok c) ∧
    (c.state ≠ .Closing →
      c.send_pong data rng
          = (c.buffer_frame (Frame.pong data) rng).map Connection.check_events ∧
      (Frame.pong data).opcode = .Pong ∧
      (c.endpoint = .Server →
        c.out_buffer.data.length + (Frame.pong data).len < c.out_buffer.cap →
        c.send_pong data rng = .ok (Connection.check_events { c with out_buffer :=
          { data := c.out_buffer.data ++ (Frame.pong data).format,
            pos := c.out_buffer.pos,
            cap := max c.out_buffer.cap
              (c.out_buffer.data.length + (Frame.pong data).format.length) } }))) := by
  constructor
  · intro hs
    unfold Connection.send_pong
    rw [hs]
    rfl
  · intro hs
    have hcl : c.state.is_closing = false := by
      cases hst : c.state <;> simp_all [ConnState.is_closing]
    refine ⟨?_, rfl, ?_⟩
    · unfold Connection.send_pong
      rw [hcl]
      simp
    · intro hend hroom
      unfold Connection.send_pong
      rw [hcl]
      simp only [Bool.false_eq_true, if_false]
      unfold Connection.buffer_frame Connection.check_buffer_out
      rw [if_neg (by omega)]
      simp [hend]
      rfl

/-- Witness for C8: applied once in Closing and once in Open. -/
theorem claim_C8_send_pong_witness :
    ({ connOpen with state := .Closing }).send_pong [1] [] =
        .ok { connOpen with state := .Closing } ∧
    connOpen.send_pong [1] []
      = (connOpen.buffer_frame (Frame.pong [1]) []).map Connection.check_events :=
  ⟨(claim_C8_send_pong { connOpen with state := .Closing } [1] []).1 rfl,
   ((claim_C8_send_pong connOpen [1] []).2 (by decide)).1⟩


/-- C5 counterexample: a final Close frame with an empty payload makes
`on_close` fire with code Status and the (non-empty) diagnostic reason
"Unable to read close code. Sending empty close frame.", not with an
empty reason as the claim states. -/
theorem claim_C5_counterexample :
    (connOpen.processClose { Frame.default with payload := [] } []).1
      = [.onCloseCall .Status unreadableCloseMsg, .sendCloseCall .Empty []] ∧
    unreadableCloseMsg ≠ [] := by decide

/-- C5 (amended): a final Close frame with a payload shorter than 2 bytes,
received while not Closing, raises no error: `on_close` is invoked with
code Status and the fixed diagnostic reason (not an empty string), and a
Close frame with code Empty and empty reason is enqueued via
`send_close` (shown explicitly for a server endpoint with buffer room). -/
theorem claim_C5_short_close (c : Connection) (hC : c.state.is_closing = false)
    (frame : Frame) (hp : frame.payload.length < 2) (rng : List Nat) :
    (c.processClose frame rng).1
      = [.onCloseCall .Status unreadableCloseMsg, .sendCloseCall .Empty []] ∧
    (c.processClose frame rng).2 = c.send_close .Empty [] rng ∧
    (c.endpoint = .Server →
      c.out_buffer.data.length + (Frame.close .Empty []).len < c.out_buffer.cap →
      ∃ c2, (c.processClose frame rng).2 = .ok c2 ∧
        c2.state = .Closing ∧
        c2.out_buffer.data = c.out_buffer.data ++ (Frame.close .Empty []).format) := by
  have hbr : c.processClose frame rng
      = ([.onCloseCall .Status unreadableCloseMsg, .sendCloseCall .Empty []],
         c.send_close .Empty [] rng) := by
    unfold Connection.processClose
    rw [hC]
    simp only [Bool.false_eq_true, if_false]
    rw [if_neg (by omega)]
  refine ⟨by rw [hbr], by rw [hbr], ?_⟩
  intro hend hroom
  rw [hbr]
  unfold Connection.send_close Connection.buffer_frame Connection.check_buffer_out
  rw [if_neg (by omega)]
  simp only [hend]
  refine ⟨_, rfl, ?_, ?_⟩
  · unfold Connection.check_events
    simp [ConnState.is_connecting]
  · unfold Connection.check_events
    simp [ConnState.is_connecting]

/-- Witness for C5 at a concrete connection and empty-payload frame. -/
theorem claim_C5_short_close_witness :
    ((connOpen.processClose { Frame.default with payload := [] } []).1
      = [.onCloseCall .Status unreadableCloseMsg, .sendCloseCall .Empty []] ∧
    (connOpen.processClose { Frame.default with payload := [] } []).2
      = connOpen.send_close .Empty [] [] ∧
    (connOpen.endpoint = .Server →
      connOpen.out_buffer.data.length + (Frame.close .Empty []).len
          < connOpen.out_buffer.cap →
      ∃ c2, (connOpen.processClose { Frame.default with payload := [] } []).2 = .ok c2 ∧
        c2.state = .Closing ∧
        c2.out_buffer.data
          = connOpen.out_buffer.data ++ (Frame.close .Empty []).format)) :=
  claim_C5_short_close connOpen (by decide) { Frame.default with payload := [] }
    (by decide) []


/-- Connection whose output buffer capacity (5) differs from the
configured `out_buffer_capacity` (3), with 2 unsent bytes at positions
3..5. -/
def connC6 : Connection :=
  { state := .Open, endpoint := .Server,
    events := { readable := true, writable := false, hup := false },
    fragments := [],
    out_buffer := { data := [0, 0, 0, 0, 0], pos := 3, cap := 5 },
    settings := { fragment_size := 10, out_buffer_capacity := 3, out_buffer_grow := false } }

/-- C6 counterexample: when `check_buffer_out` reallocates, the fresh
buffer gets the OLD buffer's capacity (here 5), not `out_buffer_capacity`
bytes (here 3) as the claim states. -/
theorem claim_C6_counterexample :
    connC6.check_buffer_out (Frame.message [] .Text true)
      = .ok { connC6 with out_buffer := { data := [0, 0], pos := 0, cap := 5 } } ∧
    (5 : Nat) ≠ connC6.settings.out_buffer_capacity :=
  ⟨rfl, by decide⟩

/-- C6 (amended): when `check_buffer_out` finds the buffer lacking room,
the new buffer is allocated with the current buffer's capacity (equal to
`out_buffer_capacity` only initially) and the unsent tail is copied in;
if the tail already fills it and `out_buffer_grow` is false the call (and
hence the whole enqueue in `buffer_frame`) fails with a Capacity error
and nothing is enqueued, while with `out_buffer_grow` true the capacity
is enlarged by `out_buffer_capacity` and the enqueue proceeds. -/
theorem claim_C6_check_buffer_out (c : Connection) (frame : Frame) (rng : List Nat)
    (h : c.out_buffer.cap ≤ c.out_buffer.data.length + frame.len) :
    (c.out_buffer.data.length ≤ c.out_buffer.cap →
      max c.out_buffer.cap (c.out_buffer.data.drop c.out_buffer.pos).length
        = c.out_buffer.cap) ∧
    ((c.out_buffer.data.drop c.out_buffer.pos).length
        = max c.out_buffer.cap (c.out_buffer.data.drop c.out_buffer.pos).length →
      c.settings.out_buffer_grow = false →
      c.check_buffer_out frame = .error .Capacity ∧
      c.buffer_frame frame rng = .error .Capacity) ∧
    ((c.out_buffer.data.drop c.out_buffer.pos).length
        = max c.out_buffer.cap (c.out_buffer.data.drop c.out_buffer.pos).length →
      c.settings.out_buffer_grow = true →
      c.check_buffer_out frame = .ok { c with out_buffer :=
        { data := c.out_buffer.data.drop c.out_buffer.pos, pos := 0,
          cap := (c.out_buffer.data.drop c.out_buffer.pos).length
                   + c.settings.out_buffer_capacity } }) ∧
    ((c.out_buffer.data.drop c.out_buffer.pos).length
        ≠ max c.out_buffer.cap (c.out_buffer.data.drop c.out_buffer.pos).length →
      c.check_buffer_out frame = .ok { c with out_buffer :=
        { data := c.out_buffer.data.drop c.out_buffer.pos, pos := 0,
          cap := max c.out_buffer.cap
                   (c.out_buffer.data.drop c.out_buffer.pos).length } }) := by
  have hlen : (c.out_buffer.data.drop c.out_buffer.pos).length
      ≤ c.out_buffer.data.length := by
    simp [List.length_drop]
  refine ⟨by intro hd; omega, ?_, ?_, ?_⟩
  · intro hfull hgrow
    have hcb : c.check_buffer_out frame = .error .Capacity := by
      unfold Connection.check_buffer_out
      simp only [List.length_drop] at hfull ⊢
      rw [if_pos h, if_pos hfull, hgrow]
      simp
    exact ⟨hcb, by unfold Connection.buffer_frame; rw [hcb]⟩
  · intro hfull hgrow
    unfold Connection.check_buffer_out
    simp only [List.length_drop] at hfull ⊢
    rw [if_pos h, if_pos hfull, hgrow]
    simp
  · intro hfull
    unfold Connection.check_buffer_out
    simp only [List.length_drop] at hfull ⊢
    rw [if_pos h, if_neg hfull]

/-- Witness for C6 at the concrete connection. -/
theorem claim_C6_check_buffer_out_witness :
    (connC6.out_buffer.data.length ≤ connC6.out_buffer.cap →
      max connC6.out_buffer.cap
          (connC6.out_buffer.data.drop connC6.out_buffer.pos).length
        = connC6.out_buffer.cap) ∧
    ((connC6.out_buffer.data.drop connC6.out_buffer.pos).length
        = max connC6.out_buffer.cap
            (connC6.out_buffer.data.drop connC6.out_buffer.pos).length →
      connC6.settings.out_buffer_grow = false →
      connC6.check_buffer_out (Frame.message [] .Text true) = .error .Capacity ∧
      connC6.buffer_frame (Frame.message [] .Text true) [] = .error .Capacity) ∧
    ((connC6.out_buffer.data.drop connC6.out_buffer.pos).length
        = max connC6.out_buffer.cap
            (connC6.out_buffer.data.drop connC6.out_buffer.pos).length →
      connC6.settings.out_buffer_grow = true →
      connC6.check_buffer_out (Frame.message [] .Text true)
        = .ok { connC6 with out_buffer :=
          { data := connC6.out_buffer.data.drop connC6.out_buffer.pos, pos := 0,
            cap := (connC6.out_buffer.data.drop connC6.out_buffer.pos).length
                     + connC6.settings.out_buffer_capacity } }) ∧
    ((connC6.out_buffer.data.drop connC6.out_buffer.pos).length
        ≠ max connC6.out_buffer.cap
            (connC6.out_buffer.data.drop connC6.out_buffer.pos).length →
      connC6.check_buffer_out (Frame.message [] .Text true)
        = .ok { connC6 with out_buffer :=
          { data := connC6.out_buffer.data.drop connC6.out_buffer.pos, pos := 0,
            cap := max connC6.out_buffer.cap
                     (connC6.out_buffer.data.drop connC6.out_buffer.pos).length } }) :=
  claim_C6_check_buffer_out connC6 (Frame.message [] .Text true) [] (by decide)


theorem fromU16_eq_other (code : Nat)
    (h : code ≤ 999 ∨ code = 1004 ∨ code = 1014 ∨ code = 1016 ∨ code = 1100 ∨
         code = 2000 ∨ code = 2999 ∨ 5000 ≤ code) :
    CloseCode.fromU16 code = .Other code := by
  unfold CloseCode.fromU16
  repeat rw [if_neg (by omega)]

theorem isInvalidOnWire_other (oc : Nat)
    (h : oc < 1000 ∨ 5000 ≤ oc ∨ oc = 1004 ∨ oc = 1014 ∨ oc = 1016 ∨ oc = 1100 ∨
         oc = 2000 ∨ oc = 2999) :
    (CloseCode.Other oc).isInvalidOnWire = true := by
  simp only [CloseCode.isInvalidOnWire, Bool.or_eq_true, decide_eq_true_eq]
  tauto

/-- C4: reading the big-endian 16-bit close code of a final Close frame
(payload at least 2 bytes, not already Closing, pass-through handler):
every code in {0..999, 1004, 1014, 1016, 1100, 2000, 2999, 5000..} and
every code decoding to Abnormal, Status, Restart, Again or Tls produces a
Protocol error; every code in {1000..1003, 1007..1011} (with a UTF-8
reason) is delivered to `on_close` and echoed back via `send_close`. -/
theorem claim_C4_close_code_validity (c : Connection) (hC : c.state.is_closing = false)
    (hi lo : Nat) (hhi : hi < 256) (hlo : lo < 256) (rest rng : List Nat) :
    ((hi * 256 + lo ≤ 999 ∨ hi * 256 + lo = 1004 ∨ hi * 256 + lo = 1014 ∨
      hi * 256 + lo = 1016 ∨ hi * 256 + lo = 1100 ∨ hi * 256 + lo = 2000 ∨
      hi * 256 + lo = 2999 ∨ 5000 ≤ hi * 256 + lo ∨
      CloseCode.fromU16 (hi * 256 + lo) = .Abnormal ∨
      CloseCode.fromU16 (hi * 256 + lo) = .Status ∨
      CloseCode.fromU16 (hi * 256 + lo) = .Restart ∨
      CloseCode.fromU16 (hi * 256 + lo) = .Again ∨
      CloseCode.fromU16 (hi * 256 + lo) = .Tls) →
      (c.processClose { Frame.default with payload := hi :: lo :: rest } rng).2
        = .error .Protocol) ∧
    ((hi * 256 + lo = 1000 ∨ hi * 256 + lo = 1001 ∨ hi * 256 + lo = 1002 ∨
      hi * 256 + lo = 1003 ∨ hi * 256 + lo = 1007 ∨ hi * 256 + lo = 1008 ∨
      hi * 256 + lo = 1009 ∨ hi * 256 + lo = 1010 ∨ hi * 256 + lo = 1011) →
      validUtf8 rest = true →
      (c.processClose { Frame.default with payload := hi :: lo :: rest } rng).1
        = [.onCloseCall (CloseCode.fromU16 (hi * 256 + lo)) rest,
           .sendCloseCall (CloseCode.fromU16 (hi * 256 + lo)) []] ∧
      (c.processClose { Frame.default with payload := hi :: lo :: rest } rng).2
        = c.send_close (CloseCode.fromU16 (hi * 256 + lo)) [] rng) := by
  constructor
  · intro hbad
    unfold Connection.processClose
    rw [hC]
    simp only [Bool.false_eq_true, if_false, List.getD_cons_zero, List.getD_cons_succ,
      List.length_cons, List.drop_succ_cons, List.drop_zero]
    rw [if_pos (by omega)]
    rcases hbad with h|h|h|h|h|h|h|h|h|h|h|h|h <;>
      first
      | (rw [fromU16_eq_other (hi * 256 + lo) (by omega)]
         rw [if_pos (isInvalidOnWire_other (hi * 256 + lo) (by omega))])
      | (rw [h]
         rw [if_neg (by decide)]
         rw [if_pos (by decide)])
  · intro hgood hutf
    unfold Connection.processClose
    rw [hC]
    simp only [Bool.false_eq_true, if_false, List.getD_cons_zero, List.getD_cons_succ,
      List.length_cons, List.drop_succ_cons, List.drop_zero]
    rw [if_pos (by omega)]
    rcases hgood with h|h|h|h|h|h|h|h|h <;> rw [h] <;>
      simp [CloseCode.fromU16, CloseCode.isInvalidOnWire, hutf]


/-- C4 counterexample to the unconditional echo: a Close frame carrying
the valid code 1000 (Normal) but a non-UTF-8 reason byte 0xFF is answered
with `send_close(Invalid, "")`, not an echo of the received code. -/
theorem claim_C4_counterexample :
    (connOpen.processClose { Frame.default with payload := [3, 232, 255] } []).1
      = [.onCloseCall .Normal [], .sendCloseCall .Invalid []] ∧
    CloseCode.Invalid ≠ CloseCode.Normal := by decide

/-- Witness for C4: code 999 (bad) errors; code 1000 with empty reason is
delivered and echoed. -/
theorem claim_C4_close_code_validity_witness :
    ((connOpen.processClose { Frame.default with payload := [3, 231] } []).2
        = .error .Protocol) ∧
    ((connOpen.processClose { Frame.default with payload := [3, 232] } []).1
        = [.onCloseCall (CloseCode.fromU16 (3 * 256 + 232)) [],
           .sendCloseCall (CloseCode.fromU16 (3 * 256 + 232)) []] ∧
     (connOpen.processClose { Frame.default with payload := [3, 232] } []).2
        = connOpen.send_close (CloseCode.fromU16 (3 * 256 + 232)) [] []) :=
  ⟨(claim_C4_close_code_validity connOpen (by decide) 3 231 (by decide) (by decide)
      [] []).1 (by decide),
   (claim_C4_close_code_validity connOpen (by decide) 3 232 (by decide) (by decide)
      [] []).2 (by decide) (by decide)⟩


theorem chunksGo_nil (F : Nat) : ∀ fuel, chunksGo F fuel [] = [] := by
  intro fuel
  cases fuel <;> rfl

theorem chunksGo_stable (F : Nat) (hF : 0 < F) :
    ∀ fuel (l : List Nat), l.length ≤ fuel → chunksGo F fuel l = chunksGo F l.length l := by
  intro fuel
  induction fuel using Nat.strong_induction_on with
  | _ fuel ih =>
    intro l hl
    cases fuel with
    | zero =>
      have : l = [] := List.eq_nil_of_length_eq_zero (by omega)
      subst this
      rfl
    | succ n =>
      cases l with
      | nil => rw [chunksGo_nil, chunksGo_nil]
      | cons a r =>
        show ((a :: r).take F) :: chunksGo F n ((a :: r).drop F)
            = chunksGo F (a :: r).length (a :: r)
        have hd : ((a :: r).drop F).length ≤ n := by
          simp only [List.length_drop, List.length_cons] at hl ⊢
          omega
        have hd2 : ((a :: r).drop F).length ≤ r.length := by
          simp only [List.length_drop, List.length_cons]
          omega
        have hl2 : r.length < n + 1 := by
          simp only [List.length_cons] at hl
          omega
        rw [ih n (by omega) _ hd]
        have hstep : chunksGo F (a :: r).length (a :: r)
            = ((a :: r).take F) :: chunksGo F r.length ((a :: r).drop F) := by
          simp only [List.length_cons]
          rfl
        rw [hstep, ih r.length hl2 _ hd2]

theorem chunks_cons (F : Nat) (hF : 0 < F) (a : Nat) (r : List Nat) :
    chunks (a :: r) F = (a :: r).take F :: chunks ((a :: r).drop F) F := by
  show chunksGo F (a :: r).length (a :: r) = _
  have hstep : chunksGo F (a :: r).length (a :: r)
      = ((a :: r).take F) :: chunksGo F r.length ((a :: r).drop F) := by
    simp only [List.length_cons]
    rfl
  rw [hstep, chunksGo_stable F hF r.length _ (by simp [List.length_drop]; omega)]
  rfl

theorem chunks_flatten (F : Nat) (hF : 0 < F) (l : List Nat) :
    (chunks l F).flatten = l := by
  have main : ∀ fuel (l : List Nat), l.length ≤ fuel → (chunksGo F fuel l).flatten = l := by
    intro fuel
    induction fuel with
    | zero =>
      intro l hl
      have : l = [] := List.eq_nil_of_length_eq_zero (by omega)
      subst this
      rfl
    | succ n ih =>
      intro l hl
      cases l with
      | nil => rfl
      | cons a r =>
        show (((a :: r).take F) :: chunksGo F n ((a :: r).drop F)).flatten = a :: r
        rw [List.flatten_cons, ih _ (by simp only [List.length_drop, List.length_cons] at hl ⊢; omega),
          List.take_append_drop]
  exact main l.length l le_rfl

theorem chunks_length (F : Nat) (hF : 0 < F) (l : List Nat) (hne : l ≠ []) :
    (chunks l F).length = (l.length + F - 1) / F := by
  have main : ∀ fuel (l : List Nat), l ≠ [] → l.length ≤ fuel →
      (chunksGo F fuel l).length = (l.length + F - 1) / F := by
    intro fuel
    induction fuel with
    | zero =>
      intro l hne hl
      exact absurd (List.eq_nil_of_length_eq_zero (by omega)) hne
    | succ n ih =>
      intro l hne hl
      cases l with
      | nil => exact absurd rfl hne
      | cons a r =>
        show (((a :: r).take F) :: chunksGo F n ((a :: r).drop F)).length = _
        rw [List.length_cons]
        rcases eq_or_ne ((a :: r).drop F) [] with hdr | hdr
        · rw [hdr, chunksGo_nil]
          have hlen0 : (a :: r).length - F = 0 := by
            have h0 := congrArg List.length hdr
            simpa [List.length_drop] using h0
          have hge : 1 ≤ (a :: r).length := by simp
          rw [List.length_nil]
          have hdiv : ((a :: r).length + F - 1) / F = 1 :=
            Nat.div_eq_of_lt_le (by omega) (by omega)
          rw [hdiv]
        · rw [ih _ hdr (by simp only [List.length_drop, List.length_cons] at hl ⊢; omega)]
          have hlen : ((a :: r).drop F).length = (a :: r).length - F := by
            simp [List.length_drop]
          have hFlt : F < (a :: r).length := by
            by_contra hcon
            exact hdr (List.drop_eq_nil_of_le (by omega))
          rw [hlen]
          have e1 : (a :: r).length - F + F - 1 = (a :: r).length - 1 := by omega
          have e2 : (a :: r).length + F - 1 = ((a :: r).length - 1) + F := by omega
          rw [e1, e2, Nat.add_div_right _ hF]
  exact main l.length l hne le_rfl


theorem continueFrames_length : ∀ cs : List (List Nat),
    (continueFrames cs).length = cs.length := by
  intro cs
  induction cs with
  | nil => rfl
  | cons ch rest ih =>
    cases rest with
    | nil => rfl
    | cons c2 r2 =>
      show (Frame.message ch .Continue false :: continueFrames (c2 :: r2)).length = _
      simp only [List.length_cons] at ih ⊢
      omega

theorem continueFrames_payloads : ∀ cs : List (List Nat),
    (continueFrames cs).map Frame.payload = cs := by
  intro cs
  induction cs with
  | nil => rfl
  | cons ch rest ih =>
    cases rest with
    | nil => rfl
    | cons c2 r2 =>
      show (Frame.message ch .Continue false :: continueFrames (c2 :: r2)).map Frame.payload
          = ch :: c2 :: r2
      rw [List.map_cons, ih]
      rfl

theorem continueFrames_opcode : ∀ (cs : List (List Nat)) (i : Nat), i < cs.length →
    ((continueFrames cs).getD i Frame.default).opcode = .Continue := by
  intro cs
  induction cs with
  | nil => intro i h; simp at h
  | cons ch rest ih =>
    intro i h
    cases rest with
    | nil =>
      have : i = 0 := by simp at h; omega
      subst this
      rfl
    | cons c2 r2 =>
      cases i with
      | zero => rfl
      | succ j =>
        show ((continueFrames (c2 :: r2)).getD j Frame.default).opcode = .Continue
        exact ih j (by simp at h ⊢; omega)

theorem continueFrames_fin_mid : ∀ (cs : List (List Nat)) (i : Nat), i + 1 < cs.length →
    ((continueFrames cs).getD i Frame.default).finished = false := by
  intro cs
  induction cs with
  | nil => intro i h; simp at h
  | cons ch rest ih =>
    intro i h
    cases rest with
    | nil => simp at h
    | cons c2 r2 =>
      cases i with
      | zero => rfl
      | succ j =>
        show ((continueFrames (c2 :: r2)).getD j Frame.default).finished = false
        exact ih j (by simp at h ⊢; omega)

theorem continueFrames_fin_last : ∀ cs : List (List Nat), cs ≠ [] →
    ((continueFrames cs).getD (cs.length - 1) Frame.default).finished = true := by
  intro cs
  induction cs with
  | nil => intro h; exact absurd rfl h
  | cons ch rest ih =>
    intro _
    cases rest with
    | nil => rfl
    | cons c2 r2 =>
      show ((Frame.message ch .Continue false :: continueFrames (c2 :: r2)).getD
        ((c2 :: r2).length + 1 - 1) Frame.default).finished = true
      have hstep : (c2 :: r2).length + 1 - 1 = ((c2 :: r2).length - 1) + 1 := by
        simp
      rw [hstep]
      show ((continueFrames (c2 :: r2)).getD ((c2 :: r2).length - 1) Frame.default).finished
          = true
      exact ih (by simp)


/-- C3 counterexample to the exact frame count: an empty payload with
fragment size 1 produces one (empty, final) frame, not ⌈0/1⌉ = 0
frames. -/
theorem claim_C3_counterexample :
    (sendMessageFrames [] .Text 1).length = 1 ∧
    (([] : List Nat).length + 1 - 1) / 1 = 0 := by decide

/-- C3 (amended): for a payload of size N > 0 and fragment size F > 0,
`send_message` buffers exactly ⌈N/F⌉ frames (an empty payload still
produces one frame); when N ≤ F it is the single frame
`message(data, opcode, FIN=1)`; when N > F the first frame carries the
real opcode with FIN=0, every middle frame carries Continue with FIN=0,
the last frame carries Continue with FIN=1, and the concatenation of all
frame payloads equals the original payload. -/
theorem claim_C3_fragmentation (data : List Nat) (opcode : OpCode) (F : Nat) (hF : 0 < F) :
    (0 < data.length →
      (sendMessageFrames data opcode F).length = (data.length + F - 1) / F) ∧
    (data.length ≤ F →
      sendMessageFrames data opcode F = [Frame.message data opcode true]) ∧
    (F < data.length →
      ((sendMessageFrames data opcode F).getD 0 Frame.default).opcode = opcode ∧
      ((sendMessageFrames data opcode F).getD 0 Frame.default).finished = false ∧
      (∀ i, 0 < i → i + 1 < (sendMessageFrames data opcode F).length →
        ((sendMessageFrames data opcode F).getD i Frame.default).opcode = .Continue ∧
        ((sendMessageFrames data opcode F).getD i Frame.default).finished = false) ∧
      ((sendMessageFrames data opcode F).getD
          ((sendMessageFrames data opcode F).length - 1) Frame.default).opcode
        = .Continue ∧
      ((sendMessageFrames data opcode F).getD
          ((sendMessageFrames data opcode F).length - 1) Frame.default).finished
        = true) ∧
    ((sendMessageFrames data opcode F).map Frame.payload).flatten = data := by
  rcases Nat.lt_or_ge F data.length with hgt | hle
  · -- fragmented case
    obtain ⟨a, r, rfl⟩ : ∃ a r, data = a :: r := by
      cases data with
      | nil => simp at hgt
      | cons a r => exact ⟨a, r, rfl⟩
    have hfs : sendMessageFrames (a :: r) opcode F
        = Frame.message ((a :: r).take F) opcode false
            :: continueFrames (chunks ((a :: r).drop F) F) := by
      unfold sendMessageFrames
      rw [if_pos hgt, chunks_cons F hF]
    have hdrop_ne : (a :: r).drop F ≠ [] := by
      intro hcon
      have := congrArg List.length hcon
      simp only [List.length_drop, List.length_cons, List.length_nil] at this
      simp only [List.length_cons] at hgt
      omega
    have hcs_len : (chunks ((a :: r).drop F) F).length
        = (((a :: r).drop F).length + F - 1) / F := chunks_length F hF _ hdrop_ne
    have hcs_ne : chunks ((a :: r).drop F) F ≠ [] := by
      intro hcon
      have := congrArg List.length hcon
      rw [hcs_len] at this
      simp only [List.length_nil, List.length_drop] at this
      have h1 : (a :: r).length - F ≥ 1 := by
        simp only [List.length_cons] at hgt ⊢
        omega
      have h2 : ((a :: r).length - F + F - 1) / F ≥ 1 := by
        have : F ≤ (a :: r).length - F + F - 1 := by omega
        exact Nat.le_div_iff_mul_le hF |>.mpr (by omega)
      omega
    have hlen : (sendMessageFrames (a :: r) opcode F).length
        = ((a :: r).length + F - 1) / F := by
      rw [hfs, List.length_cons, continueFrames_length, hcs_len]
      simp only [List.length_drop]
      have hFlt : F < (a :: r).length := hgt
      have e1 : (a :: r).length - F + F - 1 = (a :: r).length - 1 := by omega
      have e2 : (a :: r).length + F - 1 = ((a :: r).length - 1) + F := by omega
      rw [e1, e2, Nat.add_div_right _ hF]
    refine ⟨fun _ => hlen, fun hcon => absurd hcon (by omega), fun _ => ?_, ?_⟩
    · refine ⟨by rw [hfs]; rfl, by rw [hfs]; rfl, ?_, ?_, ?_⟩
      · intro i hi0 hi1
        obtain ⟨j, rfl⟩ : ∃ j, i = j + 1 := ⟨i - 1, by omega⟩
        rw [hfs]
        show ((continueFrames (chunks ((a :: r).drop F) F)).getD j Frame.default).opcode
              = .Continue ∧
          ((continueFrames (chunks ((a :: r).drop F) F)).getD j Frame.default).finished
              = false
        rw [hfs, List.length_cons, continueFrames_length] at hi1
        exact ⟨continueFrames_opcode _ j (by omega),
          continueFrames_fin_mid _ j (by omega)⟩
      · rw [hfs, List.length_cons, continueFrames_length]
        have hcs1 : 1 ≤ (chunks ((a :: r).drop F) F).length :=
          List.length_pos.mpr hcs_ne
        have e : (chunks ((a :: r).drop F) F).length + 1 - 1
            = ((chunks ((a :: r).drop F) F).length - 1) + 1 := by omega
        rw [e]
        show ((continueFrames (chunks ((a :: r).drop F) F)).getD
          ((chunks ((a :: r).drop F) F).length - 1) Frame.default).opcode = .Continue
        exact continueFrames_opcode _ _ (by omega)
      · rw [hfs, List.length_cons, continueFrames_length]
        have hcs1 : 1 ≤ (chunks ((a :: r).drop F) F).length :=
          List.length_pos.mpr hcs_ne
        have e : (chunks ((a :: r).drop F) F).length + 1 - 1
            = ((chunks ((a :: r).drop F) F).length - 1) + 1 := by omega
        rw [e]
        show ((continueFrames (chunks ((a :: r).drop F) F)).getD
          ((chunks ((a :: r).drop F) F).length - 1) Frame.default).finished = true
        exact continueFrames_fin_last _ hcs_ne
    · rw [hfs]
      show (((a :: r).take F)
          :: (continueFrames (chunks ((a :: r).drop F) F)).map Frame.payload).flatten
        = a :: r
      rw [continueFrames_payloads, List.flatten_cons, chunks_flatten F hF,
        List.take_append_drop]
  · -- single-frame case
    have hfs : sendMessageFrames data opcode F = [Frame.message data opcode true] := by
      unfold sendMessageFrames
      rw [if_neg (by omega)]
    refine ⟨?_, fun _ => hfs, fun hcon => absurd hcon (by omega), ?_⟩
    · intro hpos
      rw [hfs]
      have hdiv : (data.length + F - 1) / F = 1 :=
        Nat.div_eq_of_lt_le (by omega) (by omega)
      rw [hdiv]
      rfl
    · rw [hfs]
      simp [Frame.message]

/-- Witness for C3 at payload [1,2,3] with fragment size 2. -/
theorem claim_C3_fragmentation_witness :
    (0 < ([1, 2, 3] : List Nat).length →
      (sendMessageFrames [1, 2, 3] .Text 2).length
        = (([1, 2, 3] : List Nat).length + 2 - 1) / 2) ∧
    (([1, 2, 3] : List Nat).length ≤ 2 →
      sendMessageFrames [1, 2, 3] .Text 2 = [Frame.message [1, 2, 3] .Text true]) ∧
    (2 < ([1, 2, 3] : List Nat).length →
      ((sendMessageFrames [1, 2, 3] .Text 2).getD 0 Frame.default).opcode = .Text ∧
      ((sendMessageFrames [1, 2, 3] .Text 2).getD 0 Frame.default).finished = false ∧
      (∀ i, 0 < i → i + 1 < (sendMessageFrames [1, 2, 3] .Text 2).length →
        ((sendMessageFrames [1, 2, 3] .Text 2).getD i Frame.default).opcode = .Continue ∧
        ((sendMessageFrames [1, 2, 3] .Text 2).getD i Frame.default).finished = false) ∧
      ((sendMessageFrames [1, 2, 3] .Text 2).getD
          ((sendMessageFrames [1, 2, 3] .Text 2).length - 1) Frame.default).opcode
        = .Continue ∧
      ((sendMessageFrames [1, 2, 3] .Text 2).getD
          ((sendMessageFrames [1, 2, 3] .Text 2).length - 1) Frame.default).finished
        = true) ∧
    ((sendMessageFrames [1, 2, 3] .Text 2).map Frame.payload).flatten = [1, 2, 3] :=
  claim_C3_fragmentation [1, 2, 3] .Text 2 (by decide)

end WsRs
